import Mathlib

set_option maxRecDepth 100000

/-!
Verification of the seed-migration generator (scripts/generate-seed-migration.py).

Strings are modelled as `List Char` (Python `str` is a sequence of code points;
all operations used by the script — substring test, replace-all, strip, lower,
lexicographic comparison — are defined here over `List Char`, matching Python
semantics).  Machine-word arithmetic inside the hash functions is `Nat` with
explicit `% 2^32`.
-/

namespace Seed

/-- Python string helper: if `pat` is an initial segment of `s`, return the
remainder of `s` after it, else `none`. -/
def stripLead : List Char → List Char → Option (List Char)
  | [], s => some s
  | _ :: _, [] => none
  | p :: ps, c :: cs => if p = c then stripLead ps cs else none

/-- Python `pat in s`: `pat` occurs as a contiguous substring of `s`. -/
def occursIn (pat : List Char) : List Char → Bool
  | [] => (stripLead pat []).isSome
  | c :: cs => (stripLead pat (c :: cs)).isSome || occursIn pat cs

/-- Fuelled worker for `replaceAll` (fuel bounds the number of characters
consumed, so `fuel = s.length` is always enough). -/
def replAux (pat repl : List Char) : Nat → List Char → List Char
  | 0, s => s
  | Nat.succ n, s =>
    match s with
    | [] => []
    | c :: cs =>
      match stripLead pat s with
      | some rest => repl ++ replAux pat repl n rest
      | none => c :: replAux pat repl n cs

/-- Python `s.replace(pat, repl)`: replace every non-overlapping occurrence of
`pat` in `s` (scanning left to right) by `repl`.  (The script only ever calls
this with a non-empty `pat`.) -/
def replaceAll (s pat repl : List Char) : List Char :=
  replAux pat repl s.length s

/-- Python `s.strip()` restricted to ASCII whitespace (the data fields contain
only spaces). -/
def strip (s : List Char) : List Char :=
  ((s.dropWhile Char.isWhitespace).reverse.dropWhile Char.isWhitespace).reverse

/-- Python `s.lower()` (ASCII). -/
def lowerStr (s : List Char) : List Char := s.map Char.toLower

/-- Python string `<=`: lexicographic comparison by code point, a shorter
strict initial segment comparing smaller. -/
def lexLe : List Char → List Char → Bool
  | a :: as, b :: bs => if a = b then lexLe as bs else decide (a < b)
  | [], _ => true
  | _, _ => false

-- ---------------------------------------------------------------------------
-- Court name -> court_id mapping (court_name_to_id)
-- ---------------------------------------------------------------------------

/-- The `STATE_ABBREVS` table, in its Python insertion (= iteration) order. -/
def STATE_ABBREVS : List (List Char × List Char) := [
  ("Alabama".data, "al".data), ("Alaska".data, "ak".data),
  ("Arizona".data, "az".data), ("Arkansas".data, "ar".data),
  ("California".data, "ca".data), ("Colorado".data, "co".data),
  ("Connecticut".data, "ct".data), ("Delaware".data, "de".data),
  ("Florida".data, "fl".data), ("Georgia".data, "ga".data),
  ("Hawaii".data, "hi".data), ("Idaho".data, "id".data),
  ("Illinois".data, "il".data), ("Indiana".data, "in".data),
  ("Iowa".data, "ia".data), ("Kansas".data, "ks".data),
  ("Kentucky".data, "ky".data), ("Louisiana".data, "la".data),
  ("Maine".data, "me".data), ("Maryland".data, "md".data),
  ("Massachusetts".data, "ma".data), ("Michigan".data, "mi".data),
  ("Minnesota".data, "mn".data), ("Mississippi".data, "ms".data),
  ("Missouri".data, "mo".data), ("Montana".data, "mt".data),
  ("Nebraska".data, "ne".data), ("Nevada".data, "nv".data),
  ("New Hampshire".data, "nh".data), ("New Jersey".data, "nj".data),
  ("New Mexico".data, "nm".data), ("New York".data, "ny".data),
  ("North Carolina".data, "nc".data), ("North Dakota".data, "nd".data),
  ("Ohio".data, "oh".data), ("Oklahoma".data, "ok".data),
  ("Oregon".data, "or".data), ("Pennsylvania".data, "pa".data),
  ("Rhode Island".data, "ri".data), ("South Carolina".data, "sc".data),
  ("South Dakota".data, "sd".data), ("Tennessee".data, "tn".data),
  ("Texas".data, "tx".data), ("Utah".data, "ut".data),
  ("Vermont".data, "vt".data), ("Virginia".data, "va".data),
  ("Washington".data, "wa".data), ("West Virginia".data, "wv".data),
  ("Wisconsin".data, "wi".data), ("Wyoming".data, "wy".data),
  ("Columbia".data, "dc".data), ("Puerto Rico".data, "pr".data),
  ("Guam".data, "gu".data), ("Virgin Islands".data, "vi".data),
  ("Northern Mariana Islands".data, "nmi".data)]

/-- The `DIRECTION_ABBREVS` table, in its Python insertion (= iteration)
order. -/
def DIRECTION_ABBREVS : List (List Char × List Char) := [
  ("Northern".data, "n".data), ("Southern".data, "s".data),
  ("Eastern".data, "e".data), ("Western".data, "w".data),
  ("Central".data, "c".data), ("Middle".data, "m".data)]

/-- The prefix-stripping phase of `court_name_to_id` (four `replace` calls,
in source order). -/
def cleanName (name : List Char) : List Char :=
  replaceAll (replaceAll (replaceAll (replaceAll name
    "U.S. District Court for the ".data [])
    "U.S. District Court - ".data [])
    "U.S. Bankruptcy Court - ".data [])
    "District of ".data []

/-- A `for`-loop with `break` over an abbreviation table: the first entry whose
name occurs in `s` is returned. -/
def findFirst : List (List Char × List Char) → List Char → Option (List Char × List Char)
  | [], _ => none
  | p :: rest, s => if occursIn p.1 s then some p else findFirst rest s

/-- The two `replace` calls performed on the working string after a direction
match `d`. -/
def stripDirection (cleaned : List Char) (d : List Char × List Char) : List Char :=
  replaceAll (replaceAll cleaned (d.1 ++ " District of ".data) []) (d.1 ++ " ".data) []

/-- Function `court_name_to_id`: convert an FJC court name to a short district code. -/
def court_name_to_id (name : List Char) : Option (List Char) :=
  if name = [] then none
  else
    let cleaned := cleanName name
    let dir := findFirst DIRECTION_ABBREVS cleaned
    let direction : List Char := match dir with | some d => d.2 | none => []
    let cleaned2 := match dir with | some d => stripDirection cleaned d | none => cleaned
    match findFirst STATE_ABBREVS cleaned2 with
    | some s => some (s.2 ++ direction ++ "d".data)
    | none => none

example : court_name_to_id "U.S. District Court for the Northern District of California".data
    = some "cand".data := by decide
example : court_name_to_id "District of Vermont".data = some "vtd".data := by decide
example : court_name_to_id "Some Unrelated Institution".data = none := by decide

-- ---------------------------------------------------------------------------
-- Title and status mapping, CSV normalization (parse_csv_judges body)
-- ---------------------------------------------------------------------------

/-- Function `map_title`: map FJC appointment title to a valid judge title. -/
def map_title (raw_title : List Char) : List Char :=
  if raw_title = [] then "Judge".data
  else
    let t := strip raw_title
    if occursIn "Chief".data t then "Chief Judge".data
    else if occursIn "Magistrate".data t then "Magistrate Judge".data
    else if occursIn "Senior".data t then "Senior Judge".data
    else "Judge".data

/-- One row of the FJC biographical directory CSV (the fields the script
reads; a missing field is the empty string, as under `row.get(...) or ""`). -/
structure CsvRow where
  deathYear : List Char
  courtType : List Char
  courtName : List Char
  firstName : List Char
  middleName : List Char
  lastName : List Char
  suffix : List Char
  appointmentTitle : List Char
  seniorStatusDate : List Char
  termination : List Char
  commissionDate : List Char
  chiefBegin : List Char
  chiefEnd : List Char
  jid : List Char
  deriving DecidableEq, Repr, Inhabited

/-- Function `map_status`: determine judge status from a CSV row. -/
def map_status (row : CsvRow) : List Char :=
  let senior_date := strip row.seniorStatusDate
  let termination := strip row.termination
  if termination = "Retirement".data then "Retired".data
  else if senior_date ≠ [] then "Senior".data
  else "Active".data

/-- The canonical judge record built by the two normalizers.  The two
date-valued fields (`appointed_date`, `senior_status_date`), produced by the
shared date parser, are not referenced by any downstream decision logic
verified here and are omitted. -/
structure Judge where
  court_id : List Char
  name : List Char
  title : List Char
  district : List Char
  status : List Char
  seed_key : List Char
  court_full_name : List Char
  deriving DecidableEq, Repr, Inhabited

/-- The per-row body of `parse_csv_judges`: admission checks (death year,
court type, resolvable court) followed by name/title/status normalization;
`none` when the row is dropped. -/
def normalizeCsvRow (row : CsvRow) : Option Judge :=
  let death_year := strip row.deathYear
  if death_year ≠ [] then none
  else
    let court_type := strip row.courtType
    if court_type ≠ "U.S. District Court".data then none
    else
      let court_name := strip row.courtName
      match court_name_to_id court_name with
      | none => none
      | some court_id =>
        let first := strip row.firstName
        let middle := strip row.middleName
        let last := strip row.lastName
        let sfx := strip row.suffix
        let name_parts := [first]
          ++ (if middle ≠ [] ∧ middle ≠ " ".data then [middle] else [])
          ++ [last]
          ++ (if sfx ≠ [] ∧ sfx ≠ " ".data then [sfx] else [])
        let name := List.intercalate " ".data name_parts
        let title0 := map_title row.appointmentTitle
        let status := map_status row
        let chief_begin := strip row.chiefBegin
        let chief_end := strip row.chiefEnd
        let title := if chief_begin ≠ [] ∧ chief_end = [] then "Chief Judge".data else title0
        let district := replaceAll court_name "U.S. District Court for the ".data []
        some { court_id := court_id, name := name, title := title, district := district,
               status := status, seed_key := "csv-".data ++ row.jid,
               court_full_name := court_name }

/-- Function `parse_csv_judges` over an already-read list of rows. -/
def parse_csv_judges (rows : List CsvRow) : List Judge :=
  rows.filterMap normalizeCsvRow

-- ---------------------------------------------------------------------------
-- Deduplication (main loop, lines 501-509)
-- ---------------------------------------------------------------------------

/-- The dedup key: `(j["name"].lower(), j["court_id"])`. -/
def keyOf (j : Judge) : List Char × List Char := (lowerStr j.name, j.court_id)

/-- The dedup loop with its `seen` set (modelled as a list of keys; only
membership is used). -/
def dedupAux : List Judge → List (List Char × List Char) → List Judge
  | [], _ => []
  | j :: rest, seen =>
    if keyOf j ∈ seen then dedupAux rest seen
    else j :: dedupAux rest (keyOf j :: seen)

/-- Deduplicate judges by `(lowercased name, court_id)`, first occurrence
winning; applied in `main` to `csv_judges + mag_judges`. -/
def dedupJudges (all_judges : List Judge) : List Judge :=
  dedupAux all_judges []

-- ---------------------------------------------------------------------------
-- Attorney generation
-- ---------------------------------------------------------------------------

/-- Table `ATTORNEY_DATA`: the fixed 50-entry fixture (first, middle, last, firm;
a missing firm is `none`). -/
def ATTORNEY_DATA : List (List Char × List Char × List Char × Option (List Char)) := [
  ("Sarah".data, "Mitchell".data, "Johnson".data, some "Mitchell & Associates".data),
  ("Robert".data, "James".data, "Chen".data, some "Chen Law Group".data),
  ("Maria".data, "Elena".data, "Garcia".data, some "Garcia & Partners LLP".data),
  ("David".data, "Allen".data, "Park".data, some "Park Legal Services".data),
  ("Jennifer".data, "Lynn".data, "O\x27Brien".data, some "O\x27Brien & Associates".data),
  ("Michael".data, "Thomas".data, "Williams".data, none),
  ("Lisa".data, "Marie".data, "Rodriguez".data, some "Rodriguez Criminal Defense".data),
  ("James".data, "Patrick".data, "Murphy".data, some "Murphy Law Firm".data),
  ("Amanda".data, "Rose".data, "Thompson".data, some "Thompson & Associates".data),
  ("Christopher".data, "Lee".data, "Kim".data, none),
  ("Rachel".data, "Ann".data, "Patel".data, some "Patel Law Group".data),
  ("William".data, "Edward".data, "Davis".data, some "Davis & Whitmore LLP".data),
  ("Michelle".data, "Lee".data, "Nguyen".data, some "Nguyen Legal Defense".data),
  ("Daniel".data, "Mark".data, "Anderson".data, some "Anderson & Partners".data),
  ("Stephanie".data, "Grace".data, "Brown".data, none),
  ("Kevin".data, "John".data, "Wilson".data, some "Wilson Criminal Law".data),
  ("Laura".data, "Beth".data, "Taylor".data, some "Taylor & Associates".data),
  ("Marcus".data, "James".data, "Jackson".data, some "Jackson Legal Group".data),
  ("Patricia".data, "Ann".data, "White".data, some "White & Associates LLP".data),
  ("Brian".data, "Michael".data, "Harris".data, none),
  ("Christina".data, "Marie".data, "Martin".data, some "Martin Law Offices".data),
  ("Andrew".data, "Thomas".data, "Lewis".data, some "Lewis & Walker".data),
  ("Nicole".data, "Elizabeth".data, "Clark".data, some "Clark Criminal Defense".data),
  ("Steven".data, "Robert".data, "Robinson".data, none),
  ("Karen".data, "Sue".data, "Martinez".data, some "Martinez & Associates".data),
  ("Gregory".data, "Paul".data, "Hall".data, some "Hall Law Group".data),
  ("Angela".data, "Dawn".data, "Young".data, some "Young & Associates".data),
  ("Jason".data, "Lee".data, "Allen".data, some "Allen Legal Services".data),
  ("Catherine".data, "Anne".data, "King".data, some "King & Associates".data),
  ("Thomas".data, "William".data, "Scott".data, none),
  ("Rebecca".data, "Jo".data, "Adams".data, some "Adams Law Firm".data),
  ("Eric".data, "Charles".data, "Baker".data, some "Baker & Nelson LLP".data),
  ("Diana".data, "Lynn".data, "Gonzalez".data, some "Gonzalez Defense Group".data),
  ("Richard".data, "Joseph".data, "Nelson".data, none),
  ("Susan".data, "Kay".data, "Carter".data, some "Carter Legal Services".data),
  ("Jeffrey".data, "Dean".data, "Mitchell".data, some "Mitchell & Stern".data),
  ("Heather".data, "Marie".data, "Perez".data, none),
  ("Timothy".data, "James".data, "Roberts".data, some "Roberts Law Group".data),
  ("Sandra".data, "Lee".data, "Turner".data, some "Turner & Associates".data),
  ("Ryan".data, "Patrick".data, "Phillips".data, some "Phillips Criminal Law".data),
  ("Emily".data, "Anne".data, "Campbell".data, none),
  ("Douglas".data, "Wayne".data, "Parker".data, some "Parker & Associates".data),
  ("Amy".data, "Nicole".data, "Evans".data, some "Evans Law Firm".data),
  ("Mark".data, "Allen".data, "Edwards".data, some "Edwards & Associates".data),
  ("Donna".data, "Sue".data, "Collins".data, none),
  ("Scott".data, "David".data, "Stewart".data, some "Stewart Legal Group".data),
  ("Pamela".data, "Jean".data, "Sanchez".data, some "Sanchez Defense".data),
  ("Adam".data, "Michael".data, "Morris".data, none),
  ("Christine".data, "Marie".data, "Rogers".data, some "Rogers & Associates".data),
  ("Joseph".data, "Francis".data, "Reed".data, some "Reed Law Offices".data)]

/-- Table `ATTORNEY_STATUSES` (50 entries, parallel to `ATTORNEY_DATA`). -/
def ATTORNEY_STATUSES : List (List Char) := [
  "Active".data, "Active".data, "Active".data, "Active".data, "Active".data,
  "Active".data, "Active".data, "Active".data, "Active".data, "Active".data,
  "Active".data, "Active".data, "Active".data, "Active".data, "Active".data,
  "Active".data, "Active".data, "Active".data, "Active".data, "Active".data,
  "Active".data, "Active".data, "Active".data, "Active".data, "Active".data,
  "Active".data, "Active".data, "Inactive".data, "Active".data, "Active".data,
  "Active".data, "Active".data, "Active".data, "Active".data, "Active".data,
  "Active".data, "Active".data, "Active".data, "Active".data, "Active".data,
  "Active".data, "Suspended".data, "Active".data, "Active".data, "Active".data,
  "Active".data, "Active".data, "Active".data, "Active".data, "Retired".data]

/-- Table `ATTORNEY_CITIES` (city, state, zip). -/
def ATTORNEY_CITIES : List (List Char × List Char × List Char) := [
  ("New York".data, "NY".data, "10001".data),
  ("Los Angeles".data, "CA".data, "90012".data),
  ("Chicago".data, "IL".data, "60602".data),
  ("Houston".data, "TX".data, "77002".data),
  ("Miami".data, "FL".data, "33132".data),
  ("Boston".data, "MA".data, "02108".data),
  ("Philadelphia".data, "PA".data, "19107".data),
  ("Washington".data, "DC".data, "20001".data),
  ("Newark".data, "NJ".data, "07102".data),
  ("Atlanta".data, "GA".data, "30303".data)]

/-- Insert into a `lexLe`-sorted list, keeping it sorted. -/
def insertSorted (x : List Char) : List (List Char) → List (List Char)
  | [] => [x]
  | y :: ys => if lexLe x y then x :: y :: ys else y :: insertSorted x ys

/-- Python `sorted()` on a collection of strings, modelled as insertion sort
under the code-point lexicographic order (the unique sorted arrangement for
the distinct elements it is applied to). -/
def sortCourts : List (List Char) → List (List Char)
  | [] => []
  | x :: xs => insertSorted x (sortCourts xs)

/-- The `courts_list` computed at the top of `generate_attorneys`: the sorted
court ids, capped at the 20 smallest, with a three-court fallback when the
set is empty.  The input set of court ids is modelled as a duplicate-free
list. -/
def courtsList (court_ids : List (List Char)) : List (List Char) :=
  let s := if court_ids.length > 20 then (sortCourts court_ids).take 20
           else sortCourts court_ids
  if s = [] then ["nysd".data, "cacd".data, "ilnd".data] else s

/-- Decimal rendering of a natural number (Python `str()` / `f"{n}"`). -/
def natChars (n : Nat) : List Char := Nat.toDigits 10 n

/-- One generated attorney record. -/
structure Attorney where
  court_id : List Char
  bar_number : List Char
  first_name : List Char
  middle_name : List Char
  last_name : List Char
  firm_name : Option (List Char)
  email : List Char
  phone : List Char
  fax : Option (List Char)
  status : List Char
  street1 : List Char
  city : List Char
  state : List Char
  zip_code : List Char
  country : List Char
  cja_panel_member : Bool
  cases_handled : Nat
  languages_sql : List Char
  seed_key : List Char
  deriving DecidableEq, Repr, Inhabited

/-- The loop body of `generate_attorneys` at 0-based index `i`.  (For the 50
fixture indices the `:03d`/`:04d` pad widths in the phone/fax formats never
bind — the values already have 3 resp. 4 digits — so plain decimal rendering
is exact.) -/
def mkAttorney (courts_list : List (List Char)) (i : Nat)
    (d : List Char × List Char × List Char × Option (List Char)) : Attorney :=
  let city_info := ATTORNEY_CITIES.getD (i % ATTORNEY_CITIES.length) ([], [], [])
  let court_id := courts_list.getD (i % courts_list.length) []
  let state := city_info.2.1
  let bar_num := state ++ natChars (10000 + i)
  let status := ATTORNEY_STATUSES.getD i []
  let fax := match d.2.2.2 with
    | some _ => some ("(555) ".data ++ natChars (200 + i) ++ "-".data ++ natChars (2000 + i * 7))
    | none => none
  let languages := "ARRAY[\x27English\x27".data
    ++ (if i % 4 = 0 then ",\x27Spanish\x27".data else [])
    ++ (if i % 7 = 0 then ",\x27Mandarin\x27".data else [])
    ++ "]::text[]".data
  { court_id := court_id, bar_number := bar_num,
    first_name := d.1, middle_name := d.2.1, last_name := d.2.2.1, firm_name := d.2.2.2,
    email := lowerStr d.1 ++ ".".data ++ lowerStr d.2.2.1 ++ "@example.com".data,
    phone := "(555) ".data ++ natChars (100 + i) ++ "-".data ++ natChars (1000 + i * 7),
    fax := fax, status := status,
    street1 := natChars (100 + i * 10) ++ " Federal Plaza".data,
    city := city_info.1, state := state, zip_code := city_info.2.2,
    country := "US".data, cja_panel_member := decide (i % 5 = 0),
    cases_handled := (i * 7 + 3) % 200, languages_sql := languages,
    seed_key := "atty-".data ++ natChars i }

/-- The `for i, (...) in enumerate(ATTORNEY_DATA)` loop. -/
def genAttys (courts_list : List (List Char)) :
    Nat → List (List Char × List Char × List Char × Option (List Char)) → List Attorney
  | _, [] => []
  | i, d :: rest => mkAttorney courts_list i d :: genAttys courts_list (i + 1) rest

/-- Function `generate_attorneys`: sample attorneys distributed across known courts. -/
def generate_attorneys (court_ids : List (List Char)) : List Attorney :=
  genAttys (courtsList court_ids) 0 ATTORNEY_DATA

example : ATTORNEY_STATUSES.length = 50 := by decide
example : ATTORNEY_DATA.length = 50 := by decide
example : (generate_attorneys []).length = 50 := by decide
example : ((generate_attorneys ["vtd".data, "cand".data]).getD 3 default).court_id
    = "vtd".data := by decide

-- ---------------------------------------------------------------------------
-- 32-bit word arithmetic on Nat
-- ---------------------------------------------------------------------------

/-- The word modulus 2^32. -/
def M32 : Nat := 4294967296

/-- Right-rotate a 32-bit word by `n`. -/
def rotr32 (n x : Nat) : Nat := ((x >>> n) ||| (x <<< (32 - n))) % M32

/-- Left-rotate a 32-bit word by `n`. -/
def rotl32 (n x : Nat) : Nat := ((x <<< n) ||| (x >>> (32 - n))) % M32

/-- Bitwise complement of a 32-bit word. -/
def not32 (x : Nat) : Nat := x ^^^ 0xffffffff

/-- UTF-8 encoding of one code point (Python `str.encode()`). -/
def utf8Char (c : Char) : List Nat :=
  let n := c.toNat
  if n < 128 then [n]
  else if n < 2048 then [192 + n / 64, 128 + n % 64]
  else if n < 65536 then [224 + n / 4096, 128 + n / 64 % 64, 128 + n % 64]
  else [240 + n / 262144, 128 + n / 4096 % 64, 128 + n / 64 % 64, 128 + n % 64]

/-- UTF-8 encoding of a string as a byte list. -/
def utf8Encode : List Char → List Nat
  | [] => []
  | c :: cs => utf8Char c ++ utf8Encode cs

/-- Merkle-Damgard padding shared by MD5 and SHA-256: append `0x80`, zero-pad
to 56 mod 64, then the 8-byte bit length (`lenTail` renders it in the
algorithm's endianness). -/
def padMessage (lenTail : Nat → List Nat) (msg : List Nat) : List Nat :=
  let len := msg.length
  let zeros := (120 - (len + 1) % 64) % 64
  msg ++ [128] ++ List.replicate zeros 0 ++ lenTail (len * 8)

/-- The 8-byte big-endian rendering of the bit length (SHA-256). -/
def lenBytesBE (n : Nat) : List Nat :=
  [(n >>> 56) % 256, (n >>> 48) % 256, (n >>> 40) % 256, (n >>> 32) % 256,
   (n >>> 24) % 256, (n >>> 16) % 256, (n >>> 8) % 256, n % 256]

/-- The 8-byte little-endian rendering of the bit length (MD5). -/
def lenBytesLE (n : Nat) : List Nat :=
  [n % 256, (n >>> 8) % 256, (n >>> 16) % 256, (n >>> 24) % 256,
   (n >>> 32) % 256, (n >>> 40) % 256, (n >>> 48) % 256, (n >>> 56) % 256]

/-- Split a padded message into 64-byte blocks (`fuel` = number of blocks). -/
def toBlocks : Nat → List Nat → List (List Nat)
  | 0, _ => []
  | n + 1, bs => bs.take 64 :: toBlocks n (bs.drop 64)

/-- Big-endian 4-byte groups to 32-bit words (SHA-256 message load). -/
def bytesToWordsBE : List Nat → List Nat
  | b0 :: b1 :: b2 :: b3 :: rest =>
    (((b0 * 256 + b1) * 256 + b2) * 256 + b3) :: bytesToWordsBE rest
  | _ => []

/-- Little-endian 4-byte groups to 32-bit words (MD5 message load). -/
def bytesToWordsLE : List Nat → List Nat
  | b0 :: b1 :: b2 :: b3 :: rest =>
    (b0 + 256 * (b1 + 256 * (b2 + 256 * b3))) :: bytesToWordsLE rest
  | _ => []

/-- Big-endian bytes of a 32-bit word (SHA-256 digest). -/
def wordBytesBE (w : Nat) : List Nat :=
  [(w >>> 24) % 256, (w >>> 16) % 256, (w >>> 8) % 256, w % 256]

/-- Little-endian bytes of a 32-bit word (MD5 digest). -/
def wordBytesLE (w : Nat) : List Nat :=
  [w % 256, (w >>> 8) % 256, (w >>> 16) % 256, (w >>> 24) % 256]

/-- The sixteen lowercase hex digits. -/
def hexChars : List Char := "0123456789abcdef".data

/-- The hex digit for a nibble. -/
def hexDigitChar (n : Nat) : Char := hexChars.getD n 'x'

/-- Two lowercase hex digits of a byte (`bytes.hex()` per byte). -/
def byteHex (b : Nat) : List Char := [hexDigitChar (b / 16 % 16), hexDigitChar (b % 16)]

/-- Lowercase hex rendering of a byte string (`hexdigest`). -/
def bytesHex : List Nat → List Char
  | [] => []
  | b :: bs => byteHex b ++ bytesHex bs

-- ---------------------------------------------------------------------------
-- SHA-256 (hashlib.sha256)
-- ---------------------------------------------------------------------------

/-- The SHA-256 round constants (decimal). -/
def SHA_K : List Nat := [
  1116352408, 1899447441, 3049323471, 3921009573, 961987163,
  1508970993, 2453635748, 2870763221, 3624381080, 310598401,
  607225278, 1426881987, 1925078388, 2162078206, 2614888103,
  3248222580, 3835390401, 4022224774, 264347078, 604807628,
  770255983, 1249150122, 1555081692, 1996064986, 2554220882,
  2821834349, 2952996808, 3210313671, 3336571891, 3584528711,
  113926993, 338241895, 666307205, 773529912, 1294757372,
  1396182291, 1695183700, 1986661051, 2177026350, 2456956037,
  2730485921, 2820302411, 3259730800, 3345764771, 3516065817,
  3600352804, 4094571909, 275423344, 430227734, 506948616,
  659060556, 883997877, 958139571, 1322822218, 1537002063,
  1747873779, 1955562222, 2024104815, 2227730452, 2361852424,
  2428436474, 2756734187, 3204031479, 3329325298]

/-- The eight 32-bit chaining words of the SHA-256 state. -/
structure Sha256State where
  a : Nat
  b : Nat
  c : Nat
  d : Nat
  e : Nat
  f : Nat
  g : Nat
  h : Nat
  deriving Repr

/-- The SHA-256 initial state (decimal). -/
def SHA_H0 : Sha256State :=
  ⟨1779033703, 3144134277, 1013904242, 2773480762,
   1359893119, 2600822924, 528734635, 1541459225⟩

/-- SHA-256 big sigma 0. -/
def bsig0 (x : Nat) : Nat := (rotr32 2 x ^^^ rotr32 13 x) ^^^ rotr32 22 x

/-- SHA-256 big sigma 1. -/
def bsig1 (x : Nat) : Nat := (rotr32 6 x ^^^ rotr32 11 x) ^^^ rotr32 25 x

/-- SHA-256 small sigma 0. -/
def ssig0 (x : Nat) : Nat := (rotr32 7 x ^^^ rotr32 18 x) ^^^ (x >>> 3)

/-- SHA-256 small sigma 1. -/
def ssig1 (x : Nat) : Nat := (rotr32 17 x ^^^ rotr32 19 x) ^^^ (x >>> 10)

/-- SHA-256 choose. -/
def chFn (x y z : Nat) : Nat := (x &&& y) ^^^ (not32 x &&& z)

/-- SHA-256 majority. -/
def majFn (x y z : Nat) : Nat := ((x &&& y) ^^^ (x &&& z)) ^^^ (y &&& z)

/-- Extend a 16-word block schedule by `fuel` further words. -/
def extendSched : Nat → List Nat → List Nat
  | 0, ws => ws
  | n + 1, ws =>
    let L := ws.length
    let next := (ssig1 (ws.getD (L - 2) 0) + ws.getD (L - 7) 0
      + ssig0 (ws.getD (L - 15) 0) + ws.getD (L - 16) 0) % M32
    extendSched n (ws ++ [next])

/-- One SHA-256 round with constant `k` and schedule word `w`. -/
def shaRound (st : Sha256State) (k w : Nat) : Sha256State :=
  let t1 := (st.h + bsig1 st.e + chFn st.e st.f st.g + k + w) % M32
  let t2 := (bsig0 st.a + majFn st.a st.b st.c) % M32
  ⟨(t1 + t2) % M32, st.a, st.b, st.c, (st.d + t1) % M32, st.e, st.f, st.g⟩

/-- The 64 SHA-256 rounds, consuming constants and schedule words in step. -/
def shaRounds : List Nat → List Nat → Sha256State → Sha256State
  | k :: ks, w :: ws, st => shaRounds ks ws (shaRound st k w)
  | _, _, st => st

/-- Compress one 64-byte block into the state. -/
def shaBlock (st : Sha256State) (block : List Nat) : Sha256State :=
  let ws := extendSched 48 (bytesToWordsBE block)
  let r := shaRounds SHA_K ws st
  ⟨(st.a + r.a) % M32, (st.b + r.b) % M32, (st.c + r.c) % M32, (st.d + r.d) % M32,
   (st.e + r.e) % M32, (st.f + r.f) % M32, (st.g + r.g) % M32, (st.h + r.h) % M32⟩

/-- Fold the block compression over all blocks. -/
def shaBlocks : List (List Nat) → Sha256State → Sha256State
  | [], st => st
  | b :: bs, st => shaBlocks bs (shaBlock st b)

/-- The SHA-256 final state of a byte message. -/
def sha256Words (msg : List Nat) : Sha256State :=
  let p := padMessage lenBytesBE msg
  shaBlocks (toBlocks (p.length / 64) p) SHA_H0

/-- The 32 digest bytes of a SHA-256 state. -/
def sha256DigestBytes (st : Sha256State) : List Nat :=
  wordBytesBE st.a ++ wordBytesBE st.b ++ wordBytesBE st.c ++ wordBytesBE st.d
  ++ wordBytesBE st.e ++ wordBytesBE st.f ++ wordBytesBE st.g ++ wordBytesBE st.h

/-- Python `hashlib.sha256(msg).hexdigest()`. -/
def sha256hex (msg : List Nat) : List Char :=
  bytesHex (sha256DigestBytes (sha256Words msg))

-- ---------------------------------------------------------------------------
-- MD5 (hashlib.md5)
-- ---------------------------------------------------------------------------

/-- The MD5 sine-derived round constants. -/
def MD5_K : List Nat := [
  0xd76aa478, 0xe8c7b756, 0x242070db, 0xc1bdceee, 0xf57c0faf, 0x4787c62a,
  0xa8304613, 0xfd469501, 0x698098d8, 0x8b44f7af, 0xffff5bb1, 0x895cd7be,
  0x6b901122, 0xfd987193, 0xa679438e, 0x49b40821, 0xf61e2562, 0xc040b340,
  0x265e5a51, 0xe9b6c7aa, 0xd62f105d, 0x02441453, 0xd8a1e681, 0xe7d3fbc8,
  0x21e1cde6, 0xc33707d6, 0xf4d50d87, 0x455a14ed, 0xa9e3e905, 0xfcefa3f8,
  0x676f02d9, 0x8d2a4c8a, 0xfffa3942, 0x8771f681, 0x6d9d6122, 0xfde5380c,
  0xa4beea44, 0x4bdecfa9, 0xf6bb4b60, 0xbebfbc70, 0x289b7ec6, 0xeaa127fa,
  0xd4ef3085, 0x04881d05, 0xd9d4d039, 0xe6db99e5, 0x1fa27cf8, 0xc4ac5665,
  0xf4292244, 0x432aff97, 0xab9423a7, 0xfc93a039, 0x655b59c3, 0x8f0ccc92,
  0xffeff47d, 0x85845dd1, 0x6fa87e4f, 0xfe2ce6e0, 0xa3014314, 0x4e0811a1,
  0xf7537e82, 0xbd3af235, 0x2ad7d2bb, 0xeb86d391]

/-- The MD5 per-round left-rotation amounts. -/
def MD5_S : List Nat := [
  7, 12, 17, 22, 7, 12, 17, 22, 7, 12, 17, 22, 7, 12, 17, 22,
  5, 9, 14, 20, 5, 9, 14, 20, 5, 9, 14, 20, 5, 9, 14, 20,
  4, 11, 16, 23, 4, 11, 16, 23, 4, 11, 16, 23, 4, 11, 16, 23,
  6, 10, 15, 21, 6, 10, 15, 21, 6, 10, 15, 21, 6, 10, 15, 21]

/-- The four 32-bit chaining words of the MD5 state. -/
structure Md5State where
  a : Nat
  b : Nat
  c : Nat
  d : Nat
  deriving Repr

/-- The MD5 initial state. -/
def MD5_H0 : Md5State := ⟨0x67452301, 0xefcdab89, 0x98badcfe, 0x10325476⟩

/-- The MD5 round mixing function for round `i`. -/
def md5F (i b c d : Nat) : Nat :=
  if i < 16 then (b &&& c) ||| (not32 b &&& d)
  else if i < 32 then (d &&& b) ||| (not32 d &&& c)
  else if i < 48 then (b ^^^ c) ^^^ d
  else c ^^^ (b ||| not32 d)

/-- The MD5 message-word index for round `i`. -/
def md5G (i : Nat) : Nat :=
  if i < 16 then i
  else if i < 32 then (5 * i + 1) % 16
  else if i < 48 then (3 * i + 5) % 16
  else (7 * i) % 16

/-- One MD5 round. -/
def md5Round (ws : List Nat) (st : Md5State) (i : Nat) : Md5State :=
  let f := md5F i st.b st.c st.d
  let tmp := (st.a + f + MD5_K.getD i 0 + ws.getD (md5G i) 0) % M32
  ⟨st.d, (st.b + rotl32 (MD5_S.getD i 0) tmp) % M32, st.b, st.c⟩

/-- Run the MD5 rounds for the listed round indices. -/
def md5Loop (ws : List Nat) : List Nat → Md5State → Md5State
  | [], st => st
  | i :: is, st => md5Loop ws is (md5Round ws st i)

/-- Compress one 64-byte block into the state. -/
def md5Block (st : Md5State) (block : List Nat) : Md5State :=
  let ws := bytesToWordsLE block
  let r := md5Loop ws (List.range 64) st
  ⟨(st.a + r.a) % M32, (st.b + r.b) % M32, (st.c + r.c) % M32, (st.d + r.d) % M32⟩

/-- Fold the block compression over all blocks. -/
def md5Blocks : List (List Nat) → Md5State → Md5State
  | [], st => st
  | b :: bs, st => md5Blocks bs (md5Block st b)

/-- The MD5 final state of a byte message. -/
def md5Words (msg : List Nat) : Md5State :=
  let p := padMessage lenBytesLE msg
  md5Blocks (toBlocks (p.length / 64) p) MD5_H0

/-- Python `hashlib.md5(msg).hexdigest()`. -/
def md5hex (msg : List Nat) : List Char :=
  bytesHex (wordBytesLE (md5Words msg).a ++ wordBytesLE (md5Words msg).b
    ++ wordBytesLE (md5Words msg).c ++ wordBytesLE (md5Words msg).d)

-- ---------------------------------------------------------------------------
-- deterministic_uuid and the caseload derivation in generate_sql
-- ---------------------------------------------------------------------------

/-- Function `deterministic_uuid`: slice the SHA-256 hex digest of the seed string into
`h[:8]-h[8:12]-4h[13:16]-8h[17:20]-h[20:32]`. -/
def deterministic_uuid (seed : List Char) : List Char :=
  let h := sha256hex (utf8Encode seed)
  h.take 8 ++ ['-'] ++ (h.drop 8).take 4 ++ ['-'] ++ ('4' :: (h.drop 13).take 3)
    ++ ['-'] ++ ('8' :: (h.drop 17).take 3) ++ ['-'] ++ (h.drop 20).take 12

/-- Numeric value of a lowercase hex digit (`int(c, 16)`). -/
def hexVal (c : Char) : Nat :=
  if c.toNat ≥ 97 then c.toNat - 87 else c.toNat - 48

/-- Python `int(s, 16)` for a lowercase hex string. -/
def hexToNat (s : List Char) : Nat := s.foldl (fun acc c => acc * 16 + hexVal c) 0

/-- The hash value `int(hashlib.md5(seed_key.encode()).hexdigest()[:4], 16)`
computed per judge in `generate_sql`. -/
def judgeHash (seed_key : List Char) : Nat :=
  hexToNat ((md5hex (utf8Encode seed_key)).take 4)

/-- The value `max_cl = 100 + (h % 300)` in `generate_sql`. -/
def maxCaseload (j : Judge) : Nat := 100 + judgeHash j.seed_key % 300

/-- The value `cur_cl = h % max_cl if status == "Active" else 0` in `generate_sql`. -/
def curCaseload (j : Judge) : Nat :=
  if j.status = "Active".data then judgeHash j.seed_key % maxCaseload j else 0

example : sha256hex (utf8Encode "csv-1234".data)
    = "1ac99fb4d919b11f4bd7f2c89c1a734ebbadfcd4475b26e5c57742b24842d4bd".data := by decide
example : sha256hex (utf8Encode [])
    = "e3b0c44298fc1c149afbf4c8996fb92427ae41e4649b934ca495991b7852b855".data := by decide
example : md5hex (utf8Encode "csv-1234".data)
    = "b006d06de83af922eebcc785559c2e7d".data := by decide
example : md5hex (utf8Encode "atty-0".data)
    = "75c05c625741ff910c3ce615aabb6c20".data := by decide
example : deterministic_uuid "csv-1234".data
    = "1ac99fb4-d919-411f-8bd7-f2c89c1a734e".data := by decide
example : judgeHash "csv-1234".data = 45062 := by decide

-- ---------------------------------------------------------------------------
-- Concrete fixtures used by witnesses and counterexamples
-- ---------------------------------------------------------------------------

/-- A CSV row admitted by normalization whose termination reason is
"Resignation" (no death year, district court, resolvable court name, no
senior-status date). -/
def rowResignation : CsvRow :=
  { deathYear := [], courtType := "U.S. District Court".data,
    courtName := "District of Vermont".data, firstName := "John".data,
    middleName := [], lastName := "Doe".data, suffix := [],
    appointmentTitle := "Judge".data, seniorStatusDate := [],
    termination := "Resignation".data, commissionDate := [],
    chiefBegin := [], chiefEnd := [], jid := "1".data }

/-- A CSV row with a chief-judge service start, no recorded end, and a raw
appointment title of plain "Judge". -/
def rowChief : CsvRow :=
  { deathYear := [], courtType := "U.S. District Court".data,
    courtName := "District of Vermont".data, firstName := "Jane".data,
    middleName := [], lastName := "Roe".data, suffix := [],
    appointmentTitle := "Judge".data, seniorStatusDate := [],
    termination := [], commissionDate := [],
    chiefBegin := "2020".data, chiefEnd := [], jid := "2".data }

/-- A CSV row with termination exactly "Retirement" and a populated
senior-status date. -/
def rowRetirementSenior : CsvRow :=
  { deathYear := [], courtType := "U.S. District Court".data,
    courtName := "District of Vermont".data, firstName := "Ann".data,
    middleName := [], lastName := "Poe".data, suffix := [],
    appointmentTitle := "Judge".data, seniorStatusDate := "2010-01-01".data,
    termination := "Retirement".data, commissionDate := [],
    chiefBegin := [], chiefEnd := [], jid := "3".data }

/-- A concrete Active judge record. -/
def judgeActiveFx : Judge :=
  { court_id := "vtd".data, name := "John Doe".data, title := "Judge".data,
    district := "Vermont".data, status := "Active".data,
    seed_key := "csv-1".data, court_full_name := "District of Vermont".data }

/-- A concrete Retired judge record sharing no fields with `judgeActiveFx`. -/
def judgeRetiredFx : Judge :=
  { court_id := "cand".data, name := "Mary Major".data, title := "Judge".data,
    district := "Northern District of California".data, status := "Retired".data,
    seed_key := "csv-7".data,
    court_full_name := "U.S. District Court for the Northern District of California".data }

/-- A magistrate judge record with the same dedup key as `judgeActiveFx` but
different title and seed key. -/
def judgeMagFx : Judge :=
  { court_id := "vtd".data, name := "JOHN DOE".data, title := "Magistrate Judge".data,
    district := "District of Vermont".data, status := "Active".data,
    seed_key := "mag-9".data, court_full_name := "District of Vermont".data }

-- ---------------------------------------------------------------------------
-- Helper lemmas
-- ---------------------------------------------------------------------------

theorem findFirst_mem {l : List (List Char × List Char)} {s : List Char}
    {p : List Char × List Char} (h : findFirst l s = some p) : p ∈ l := by
  induction l with
  | nil => simp [findFirst] at h
  | cons q rest ih =>
    rw [findFirst] at h
    by_cases hq : occursIn q.1 s
    · rw [if_pos hq] at h
      exact (Option.some.inj h) ▸ List.mem_cons_self q rest
    · rw [if_neg hq] at h
      exact List.mem_cons_of_mem q (ih h)

theorem findFirst_of_decomp {l1 l2 : List (List Char × List Char)} {s : List Char}
    {p : List Char × List Char} (hmatch : occursIn p.1 s = true)
    (hbefore : ∀ q ∈ l1, occursIn q.1 s = false) :
    findFirst (l1 ++ p :: l2) s = some p := by
  induction l1 with
  | nil => simp [findFirst, hmatch]
  | cons q rest ih =>
    have hq : occursIn q.1 s = false := hbefore q (List.mem_cons_self q rest)
    rw [List.cons_append, findFirst, hq]
    simp only [Bool.false_eq_true, if_false]
    exact ih fun q' hq' => hbefore q' (List.mem_cons_of_mem q hq')

theorem findFirst_of_none {l : List (List Char × List Char)} {s : List Char}
    (h : ∀ q ∈ l, occursIn q.1 s = false) : findFirst l s = none := by
  induction l with
  | nil => rfl
  | cons q rest ih =>
    rw [findFirst, h q (List.mem_cons_self q rest)]
    simp only [Bool.false_eq_true, if_false]
    exact ih fun q' hq' => h q' (List.mem_cons_of_mem q hq')

theorem normalizeCsvRow_fields {row : CsvRow} {j : Judge}
    (h : normalizeCsvRow row = some j) :
    j.status = map_status row ∧
    j.title = (if strip row.chiefBegin ≠ [] ∧ strip row.chiefEnd = []
               then "Chief Judge".data else map_title row.appointmentTitle) := by
  simp only [normalizeCsvRow] at h
  split at h
  · exact absurd h (by simp)
  · split at h
    · exact absurd h (by simp)
    · split at h
      · exact absurd h (by simp)
      · cases h
        exact ⟨rfl, rfl⟩

-- ---------------------------------------------------------------------------
-- Claim theorems
-- ---------------------------------------------------------------------------

/-- C1: the court resolver maps known district-court names to the short code
`<region><direction>d` (direction empty when absent) and returns `none` when
no region name matches: the three spec examples hold, and in general every
successful resolution is a region abbreviation followed by an optional
direction abbreviation followed by `d`. -/
theorem court_resolver_spec :
    court_name_to_id "U.S. District Court for the Northern District of California".data
      = some "cand".data ∧
    court_name_to_id "District of Vermont".data = some "vtd".data ∧
    court_name_to_id "Some Unrelated Institution".data = none ∧
    ∀ name r, court_name_to_id name = some r →
      ∃ s ∈ STATE_ABBREVS, ∃ dAbbrev : List Char,
        r = s.2 ++ dAbbrev ++ "d".data ∧
        (dAbbrev = [] ∨ ∃ p ∈ DIRECTION_ABBREVS, dAbbrev = p.2) := by
  refine ⟨by decide, by decide, by decide, fun name r h => ?_⟩
  by_cases hn : name = []
  · simp [court_name_to_id, hn] at h
  · simp only [court_name_to_id, if_neg hn] at h
    cases hd : findFirst DIRECTION_ABBREVS (cleanName name) with
    | none =>
      rw [hd] at h
      cases hs : findFirst STATE_ABBREVS (cleanName name) with
      | none => rw [hs] at h; exact absurd h (by simp)
      | some s =>
        rw [hs] at h
        exact ⟨s, findFirst_mem hs, [], (Option.some.inj h).symm, Or.inl rfl⟩
    | some d =>
      rw [hd] at h
      cases hs : findFirst STATE_ABBREVS (stripDirection (cleanName name) d) with
      | none => rw [hs] at h; exact absurd h (by simp)
      | some s =>
        rw [hs] at h
        exact ⟨s, findFirst_mem hs, d.2, (Option.some.inj h).symm,
          Or.inr ⟨d, findFirst_mem hd, rfl⟩⟩

/-- Witness for C1: the general shape conjunct applied to a concrete
resolution. -/
theorem court_resolver_spec_witness :
    ∃ s ∈ STATE_ABBREVS, ∃ dAbbrev : List Char,
      "vtd".data = s.2 ++ dAbbrev ++ "d".data ∧
      (dAbbrev = [] ∨ ∃ p ∈ DIRECTION_ABBREVS, dAbbrev = p.2) :=
  court_resolver_spec.2.2.2 "District of Vermont".data "vtd".data (by decide)

/-- C2 counterexample: a record admitted past normalization with a recorded
(non-"Retirement") termination reason still gets status "Active", refuting
"status Active implies the record had no recorded termination". -/
theorem status_active_termination_cex :
    (normalizeCsvRow rowResignation).isSome = true ∧
    ((normalizeCsvRow rowResignation).getD default).status = "Active".data ∧
    strip rowResignation.termination ≠ [] := by
  refine ⟨by decide, by decide, by decide⟩

/-- C2 (amended): for every tabular-source record admitted past
normalization, status Active implies no senior-status date and a termination
that is not exactly "Retirement" (a non-"Retirement" termination may still be
recorded); status Senior implies a senior-status date is present and
termination is not "Retirement"; status Retired implies termination exactly
equals "Retirement". -/
theorem status_invariants (row : CsvRow) (j : Judge)
    (h : normalizeCsvRow row = some j) :
    (j.status = "Active".data →
      strip row.termination ≠ "Retirement".data ∧ strip row.seniorStatusDate = []) ∧
    (j.status = "Senior".data →
      strip row.seniorStatusDate ≠ [] ∧ strip row.termination ≠ "Retirement".data) ∧
    (j.status = "Retired".data → strip row.termination = "Retirement".data) := by
  have hst := (normalizeCsvRow_fields h).1
  by_cases hterm : strip row.termination = "Retirement".data
  · rw [map_status, if_pos hterm] at hst
    refine ⟨fun ha => ?_, fun hs => ?_, fun _ => hterm⟩
    · exact absurd (hst.symm.trans ha) (by decide)
    · exact absurd (hst.symm.trans hs) (by decide)
  · rw [map_status, if_neg hterm] at hst
    by_cases hsen : strip row.seniorStatusDate = []
    · rw [if_neg (by simpa using hsen)] at hst
      refine ⟨fun _ => ⟨hterm, hsen⟩, fun hs => ?_, fun hr => ?_⟩
      · exact absurd (hst.symm.trans hs) (by decide)
      · exact absurd (hst.symm.trans hr) (by decide)
    · rw [if_pos (by simpa using hsen)] at hst
      refine ⟨fun ha => ?_, fun _ => ⟨hsen, hterm⟩, fun hr => ?_⟩
      · exact absurd (hst.symm.trans ha) (by decide)
      · exact absurd (hst.symm.trans hr) (by decide)

/-- Witness for C2 (amended): the invariants at a concrete admitted senior
judge row. -/
theorem status_invariants_witness :
    strip rowRetirementSenior.termination = "Retirement".data :=
  (status_invariants rowRetirementSenior
      ((normalizeCsvRow rowRetirementSenior).getD default) (by decide)).2.2 (by decide)

/-- C6: a tabular row whose chief-judge service-begin field is non-empty and
whose chief-judge service-end field is empty is normalized with title
"Chief Judge", overriding the title produced by the title-mapping rules. -/
theorem chief_judge_override (row : CsvRow) (j : Judge)
    (h : normalizeCsvRow row = some j)
    (hb : strip row.chiefBegin ≠ []) (he : strip row.chiefEnd = []) :
    j.title = "Chief Judge".data := by
  have ht := (normalizeCsvRow_fields h).2
  rwa [if_pos ⟨hb, he⟩] at ht

/-- Witness for C6: a concrete row with chief-begin "2020", empty chief-end
and raw appointment title "Judge" yields title "Chief Judge". -/
theorem chief_judge_override_witness :
    ((normalizeCsvRow rowChief).getD default).title = "Chief Judge".data :=
  chief_judge_override rowChief ((normalizeCsvRow rowChief).getD default)
    (by decide) (by decide) (by decide)

/-- C7: status resolution checks rules in a fixed order with first match
winning — termination exactly "Retirement" yields Retired, else a non-empty
senior-status date yields Senior, else Active. -/
theorem status_precedence (row : CsvRow) :
    (strip row.termination = "Retirement".data → map_status row = "Retired".data) ∧
    (strip row.termination ≠ "Retirement".data → strip row.seniorStatusDate ≠ [] →
      map_status row = "Senior".data) ∧
    (strip row.termination ≠ "Retirement".data → strip row.seniorStatusDate = [] →
      map_status row = "Active".data) := by
  refine ⟨fun h => ?_, fun h1 h2 => ?_, fun h1 h2 => ?_⟩
  · rw [map_status, if_pos h]
  · rw [map_status, if_neg h1, if_pos (by simpa using h2)]
  · rw [map_status, if_neg h1, if_neg (by simpa using h2)]

/-- Witness for C7: a row with termination "Retirement" and a populated
senior-status date yields "Retired", not "Senior". -/
theorem status_precedence_witness :
    map_status rowRetirementSenior = "Retired".data :=
  (status_precedence rowRetirementSenior).1 (by decide)

/-- C8: for every judge, the hash-derived maximum caseload lies in
[100, 400); when the status is "Active" the current caseload is strictly
less than that maximum, and otherwise the current caseload is exactly
zero. -/
theorem caseload_bounds (j : Judge) :
    (100 ≤ maxCaseload j ∧ maxCaseload j < 400) ∧
    (j.status = "Active".data → curCaseload j < maxCaseload j) ∧
    (j.status ≠ "Active".data → curCaseload j = 0) := by
  refine ⟨⟨?_, ?_⟩, fun h => ?_, fun h => ?_⟩
  · exact Nat.le_add_right 100 _
  · have : judgeHash j.seed_key % 300 < 300 := Nat.mod_lt _ (by omega)
    unfold maxCaseload
    omega
  · rw [curCaseload, if_pos h]
    exact Nat.mod_lt _ (by unfold maxCaseload; omega)
  · rw [curCaseload, if_neg h]

/-- Witness for C8: the bounds at a concrete Active judge and the zero
caseload at a concrete non-Active judge. -/
theorem caseload_bounds_witness :
    (100 ≤ maxCaseload judgeActiveFx ∧ maxCaseload judgeActiveFx < 400) ∧
    curCaseload judgeActiveFx < maxCaseload judgeActiveFx ∧
    curCaseload judgeRetiredFx = 0 :=
  ⟨(caseload_bounds judgeActiveFx).1,
   (caseload_bounds judgeActiveFx).2.1 (by decide),
   (caseload_bounds judgeRetiredFx).2.2 (by decide)⟩

theorem mem_dedupAux (l : List Judge) (seen : List (List Char × List Char)) (j : Judge) :
    j ∈ dedupAux l seen ↔
      keyOf j ∉ seen ∧ ∃ l1 l2, l = l1 ++ j :: l2 ∧ ∀ j' ∈ l1, keyOf j' ≠ keyOf j := by
  induction l generalizing seen with
  | nil =>
    simp only [dedupAux, List.not_mem_nil, false_iff]
    rintro ⟨-, l1, l2, hl, -⟩
    exact List.cons_ne_nil j l2 ((List.append_eq_nil.mp hl.symm).2)
  | cons x rest ih =>
    rw [dedupAux]
    by_cases hx : keyOf x ∈ seen
    · rw [if_pos hx, ih]
      constructor
      · rintro ⟨hnot, l1, l2, hl, hall⟩
        refine ⟨hnot, x :: l1, l2, by rw [hl, List.cons_append], fun j' hj' => ?_⟩
        rcases List.mem_cons.mp hj' with h | h
        · subst h; exact fun hk => hnot (hk ▸ hx)
        · exact hall j' h
      · rintro ⟨hnot, l1, l2, hl, hall⟩
        cases l1 with
        | nil =>
          rw [List.nil_append] at hl
          injection hl with h1 _
          exact absurd (h1 ▸ hx) hnot
        | cons y l1' =>
          rw [List.cons_append] at hl
          injection hl with _ h2
          exact ⟨hnot, l1', l2, h2, fun j' hj' => hall j' (List.mem_cons_of_mem y hj')⟩
    · rw [if_neg hx]
      constructor
      · intro hm
        rcases List.mem_cons.mp hm with rfl | hm
        · exact ⟨hx, [], rest, rfl, by simp⟩
        · obtain ⟨hnot, l1, l2, hl, hall⟩ := (ih _).mp hm
          have hnx : keyOf j ≠ keyOf x := fun hk => hnot (hk ▸ List.mem_cons_self _ _)
          have hns : keyOf j ∉ seen := fun hk => hnot (List.mem_cons_of_mem _ hk)
          refine ⟨hns, x :: l1, l2, by rw [hl, List.cons_append], fun j' hj' => ?_⟩
          rcases List.mem_cons.mp hj' with h | h
          · subst h; exact fun hk => hnx hk.symm
          · exact hall j' h
      · rintro ⟨hnot, l1, l2, hl, hall⟩
        cases l1 with
        | nil =>
          rw [List.nil_append] at hl
          injection hl with h1 _
          exact h1 ▸ List.mem_cons_self x _
        | cons y l1' =>
          rw [List.cons_append] at hl
          injection hl with h1 h2
          refine List.mem_cons_of_mem x ((ih _).mpr ⟨?_, l1', l2, h2, fun j' hj' =>
            hall j' (List.mem_cons_of_mem y hj')⟩)
          intro hk
          rcases List.mem_cons.mp hk with hk | hk
          · exact hall y (List.mem_cons_self y l1') (h1 ▸ hk.symm)
          · exact hnot hk

theorem dedupAux_keys_nodup (l : List Judge) (seen : List (List Char × List Char)) :
    ((dedupAux l seen).map keyOf).Nodup ∧
    ∀ k ∈ (dedupAux l seen).map keyOf, k ∉ seen := by
  induction l generalizing seen with
  | nil => simp [dedupAux]
  | cons x rest ih =>
    rw [dedupAux]
    by_cases hx : keyOf x ∈ seen
    · rw [if_pos hx]; exact ih seen
    · rw [if_neg hx]
      obtain ⟨hnd, hmem⟩ := ih (keyOf x :: seen)
      refine ⟨?_, ?_⟩
      · rw [List.map_cons, List.nodup_cons]
        exact ⟨fun hmem' => (hmem _ hmem') (List.mem_cons_self _ _), hnd⟩
      · intro k hk
        rw [List.map_cons, List.mem_cons] at hk
        rcases hk with hk | hk
        · exact hk ▸ hx
        · exact fun hks => (hmem k hk) (List.mem_cons_of_mem _ hks)

/-- C3: deduplication keys records by (lowercased name, court_id); the
record kept for each key is the first occurrence in the concatenated order
"all tabular-source records (`A`), then all hierarchical-source records
(`B`)", later records with the same key are discarded (the surviving key
list is duplicate-free), and whenever some record of `A` shares a key with a
survivor, that survivor itself comes from `A`. -/
theorem dedup_first_wins (A B : List Judge) :
    (∀ j, j ∈ dedupJudges (A ++ B) ↔
      ∃ l1 l2, A ++ B = l1 ++ j :: l2 ∧ ∀ j' ∈ l1, keyOf j' ≠ keyOf j) ∧
    ((dedupJudges (A ++ B)).map keyOf).Nodup ∧
    (∀ j, j ∈ dedupJudges (A ++ B) → (∃ a ∈ A, keyOf a = keyOf j) → j ∈ A) := by
  have hmem : ∀ j, j ∈ dedupJudges (A ++ B) ↔
      ∃ l1 l2, A ++ B = l1 ++ j :: l2 ∧ ∀ j' ∈ l1, keyOf j' ≠ keyOf j := by
    intro j
    rw [dedupJudges, mem_dedupAux]
    simp only [List.not_mem_nil, not_false_iff, true_and]
  refine ⟨hmem, (dedupAux_keys_nodup _ _).1, fun j hj ha => ?_⟩
  obtain ⟨a, haA, hak⟩ := ha
  obtain ⟨l1, l2, hl, hall⟩ := (hmem j).mp hj
  rcases List.append_eq_append_iff.mp hl with ⟨a', ha1, _⟩ | ⟨c', hc1, hc2⟩
  · exact absurd hak (hall a (ha1 ▸ List.mem_append_left a' haA))
  · cases c' with
    | nil =>
      rw [List.append_nil] at hc1
      exact absurd hak (hall a (hc1 ▸ haA))
    | cons y c'' =>
      injection hc2 with h1 _
      rw [hc1, h1]
      exact List.mem_append_right l1 (List.mem_cons_self y c'')

/-- Witness for C3: a tabular and a hierarchical record with the same key
(name differing only in case), plus an unrelated record; the tabular record
survives. -/
theorem dedup_first_wins_witness :
    judgeMagFx ∉ [judgeActiveFx, judgeRetiredFx] ∧
    judgeActiveFx ∈ dedupJudges ([judgeActiveFx, judgeRetiredFx] ++ [judgeMagFx]) ∧
    (judgeMagFx ∈ dedupJudges ([judgeActiveFx, judgeRetiredFx] ++ [judgeMagFx]) →
      judgeMagFx ∈ [judgeActiveFx, judgeRetiredFx]) := by
  refine ⟨by decide, ?_, ?_⟩
  · exact ((dedup_first_wins [judgeActiveFx, judgeRetiredFx] [judgeMagFx]).1
      judgeActiveFx).mpr ⟨[], [judgeRetiredFx, judgeMagFx], rfl, by simp⟩
  · intro hm
    exact (dedup_first_wins [judgeActiveFx, judgeRetiredFx] [judgeMagFx]).2.2
      judgeMagFx hm ⟨judgeActiveFx, List.mem_cons_self _ _, by decide⟩

theorem lexLe_total (a b : List Char) : lexLe a b = true ∨ lexLe b a = true := by
  induction a generalizing b with
  | nil => exact Or.inl rfl
  | cons x xs ih =>
    cases b with
    | nil => exact Or.inr rfl
    | cons y ys =>
      by_cases hxy : x = y
      · subst hxy
        rw [lexLe, if_pos rfl, lexLe, if_pos rfl]
        exact ih ys
      · rcases lt_trichotomy x y with h | h | h
        · exact Or.inl (by rw [lexLe, if_neg hxy]; exact decide_eq_true h)
        · exact absurd h hxy
        · exact Or.inr (by
            rw [lexLe, if_neg (fun he => hxy he.symm)]
            exact decide_eq_true h)

theorem lexLe_trans {a b c : List Char} (h1 : lexLe a b = true)
    (h2 : lexLe b c = true) : lexLe a c = true := by
  induction a generalizing b c with
  | nil => rfl
  | cons x xs ih =>
    cases b with
    | nil => simp [lexLe] at h1
    | cons y ys =>
      cases c with
      | nil => simp [lexLe] at h2
      | cons z zs =>
        rw [lexLe] at h1 h2 ⊢
        by_cases hxy : x = y
        · subst hxy
          rw [if_pos rfl] at h1
          by_cases hxz : x = z
          · subst hxz
            rw [if_pos rfl] at h2 ⊢
            exact ih h1 h2
          · rw [if_neg hxz] at h2 ⊢
            exact h2
        · rw [if_neg hxy] at h1
          have hxy' : x < y := of_decide_eq_true h1
          by_cases hyz : y = z
          · subst hyz
            rw [if_neg hxy]
            exact h1
          · rw [if_neg hyz] at h2
            have hyz' : y < z := of_decide_eq_true h2
            have hxz : x < z := lt_trans hxy' hyz'
            rw [if_neg (ne_of_lt hxz)]
            exact decide_eq_true hxz

theorem insertSorted_perm (x : List Char) (l : List (List Char)) :
    (insertSorted x l).Perm (x :: l) := by
  induction l with
  | nil => exact List.Perm.refl _
  | cons y ys ih =>
    rw [insertSorted]
    by_cases h : lexLe x y = true
    · rw [if_pos h]
    · rw [if_neg h]
      exact (ih.cons y).trans (List.Perm.swap x y ys)

theorem sortCourts_perm (l : List (List Char)) : (sortCourts l).Perm l := by
  induction l with
  | nil => exact List.Perm.refl _
  | cons x xs ih =>
    rw [sortCourts]
    exact (insertSorted_perm x (sortCourts xs)).trans (ih.cons x)

theorem insertSorted_sorted {x : List Char} {l : List (List Char)}
    (hl : List.Pairwise (fun a b => lexLe a b = true) l) :
    List.Pairwise (fun a b => lexLe a b = true) (insertSorted x l) := by
  induction l with
  | nil => simp [insertSorted]
  | cons y ys ih =>
    rw [insertSorted]
    obtain ⟨hy, hys⟩ := List.pairwise_cons.mp hl
    by_cases h : lexLe x y = true
    · rw [if_pos h]
      refine List.pairwise_cons.mpr ⟨fun b hb => ?_, hl⟩
      rcases List.mem_cons.mp hb with rfl | hb
      · exact h
      · exact lexLe_trans h (hy b hb)
    · rw [if_neg h]
      have hyx : lexLe y x = true := (lexLe_total x y).resolve_left h
      refine List.pairwise_cons.mpr ⟨fun b hb => ?_, ih hys⟩
      rcases List.mem_cons.mp ((insertSorted_perm x ys).mem_iff.mp hb) with rfl | hb'
      · exact hyx
      · exact hy b hb'

theorem sortCourts_sorted (l : List (List Char)) :
    List.Pairwise (fun a b => lexLe a b = true) (sortCourts l) := by
  induction l with
  | nil => exact List.Pairwise.nil
  | cons x xs ih => exact insertSorted_sorted ih

theorem sortCourts_ne_nil {l : List (List Char)} (h : l ≠ []) :
    sortCourts l ≠ [] := by
  intro hc
  exact h (List.length_eq_zero.mp ((sortCourts_perm l).symm.length_eq.trans
    (by rw [hc]; rfl)))

theorem genAttys_length (cl : List (List Char)) (k : Nat)
    (l : List (List Char × List Char × List Char × Option (List Char))) :
    (genAttys cl k l).length = l.length := by
  induction l generalizing k with
  | nil => rfl
  | cons d rest ih => simp [genAttys, ih]

theorem genAttys_getD (cl : List (List Char)) (k i : Nat)
    (l : List (List Char × List Char × List Char × Option (List Char)))
    (dflt : Attorney) (h : i < l.length) :
    (genAttys cl k l).getD i dflt = mkAttorney cl (k + i) (l.getD i ([], [], [], none)) := by
  induction l generalizing k i with
  | nil => simp at h
  | cons d rest ih =>
    cases i with
    | zero => rw [genAttys, List.getD_cons_zero, List.getD_cons_zero, Nat.add_zero]
    | succ n =>
      have h' : n < rest.length := by simpa using h
      rw [genAttys, List.getD_cons_succ, List.getD_cons_succ, ih (k + 1) n h']
      congr 1
      omega

/-- C5: given the (duplicate-free) set of resolved court ids, the assignment
list is the lexicographically smallest 20 when more than 20 exist (sorted,
drawn from the input, and below every excluded id), the sorted set otherwise,
or the fixed three-court fallback when the set is empty; and the attorney
with 0-based index `i` is assigned the court at position
`i mod (length of that list)`. -/
theorem attorney_court_assignment (ids : List (List Char)) (hnd : ids.Nodup) :
    (ids = [] → courtsList ids = ["nysd".data, "cacd".data, "ilnd".data]) ∧
    (ids ≠ [] →
      (courtsList ids).length = min ids.length 20 ∧
      List.Pairwise (fun a b => lexLe a b = true) (courtsList ids) ∧
      (∀ x ∈ courtsList ids, x ∈ ids) ∧
      (∀ x ∈ courtsList ids, ∀ y ∈ ids, y ∉ courtsList ids → lexLe x y = true)) ∧
    (∀ i, i < 50 →
      ((generate_attorneys ids).getD i default).court_id
        = (courtsList ids).getD (i % (courtsList ids).length) []) := by
  refine ⟨fun hid => by subst hid; rfl, fun hne => ?_, fun i hi => ?_⟩
  · have hperm := sortCourts_perm ids
    have hlen : (sortCourts ids).length = ids.length := hperm.length_eq
    have hsorted := sortCourts_sorted ids
    by_cases hbig : ids.length > 20
    · have hne20 : (sortCourts ids).take 20 ≠ [] := by
        intro hc
        have hl0 := congrArg List.length hc
        rw [List.length_take, hlen] at hl0
        simp only [List.length_nil] at hl0
        omega
      have hcl : courtsList ids = (sortCourts ids).take 20 := by
        simp only [courtsList]
        rw [if_pos hbig, if_neg hne20]
      have hpa := List.pairwise_append.mp
        (show List.Pairwise (fun a b => lexLe a b = true)
            ((sortCourts ids).take 20 ++ (sortCourts ids).drop 20) by
          rw [List.take_append_drop]; exact hsorted)
      refine ⟨?_, ?_, ?_, ?_⟩
      · rw [hcl, List.length_take, hlen]
        omega
      · rw [hcl]
        exact List.Pairwise.sublist (List.take_sublist 20 _) hsorted
      · intro x hx
        rw [hcl] at hx
        exact hperm.mem_iff.mp (List.take_subset _ _ hx)
      · intro x hx y hy hyn
        rw [hcl] at hx hyn
        have hy2 : y ∈ (sortCourts ids).take 20 ++ (sortCourts ids).drop 20 := by
          rw [List.take_append_drop]
          exact hperm.mem_iff.mpr hy
        rcases List.mem_append.mp hy2 with hyt | hyd
        · exact absurd hyt hyn
        · exact hpa.2.2 x hx y hyd
    · have hsn : sortCourts ids ≠ [] := sortCourts_ne_nil hne
      have hcl : courtsList ids = sortCourts ids := by
        simp only [courtsList]
        rw [if_neg hbig, if_neg hsn]
      refine ⟨?_, ?_, ?_, ?_⟩
      · rw [hcl, hlen]
        omega
      · rw [hcl]
        exact hsorted
      · intro x hx
        rw [hcl] at hx
        exact hperm.mem_iff.mp hx
      · intro x hx y hy hyn
        rw [hcl] at hyn
        exact absurd (hperm.mem_iff.mpr hy) hyn
  · have hlt : i < ATTORNEY_DATA.length := by
      have h50 : ATTORNEY_DATA.length = 50 := by decide
      omega
    rw [generate_attorneys, genAttys_getD _ 0 i _ _ hlt, Nat.zero_add]
    rfl

/-- Witness for C5: the theorem at a concrete two-court set. -/
theorem attorney_court_assignment_witness :
    (["vtd".data, "cand".data] = ([] : List (List Char)) →
      courtsList ["vtd".data, "cand".data] = ["nysd".data, "cacd".data, "ilnd".data]) ∧
    (["vtd".data, "cand".data] ≠ ([] : List (List Char)) →
      (courtsList ["vtd".data, "cand".data]).length
          = min (["vtd".data, "cand".data] : List (List Char)).length 20 ∧
      List.Pairwise (fun a b => lexLe a b = true) (courtsList ["vtd".data, "cand".data]) ∧
      (∀ x ∈ courtsList ["vtd".data, "cand".data], x ∈ (["vtd".data, "cand".data] : List (List Char))) ∧
      (∀ x ∈ courtsList ["vtd".data, "cand".data],
        ∀ y ∈ (["vtd".data, "cand".data] : List (List Char)),
          y ∉ courtsList ["vtd".data, "cand".data] → lexLe x y = true)) ∧
    (∀ i, i < 50 →
      ((generate_attorneys ["vtd".data, "cand".data]).getD i default).court_id
        = (courtsList ["vtd".data, "cand".data]).getD
            (i % (courtsList ["vtd".data, "cand".data]).length) []) :=
  attorney_court_assignment ["vtd".data, "cand".data] (by decide)

/-- C10: for every input set of court identifiers (including the empty set),
attorney generation returns exactly 50 records, one per entry of the fixed
50-element fixture in fixture order (names, firm and sequence-derived seed
key match the fixture entry at the same index). -/
theorem attorney_fixture_fixed (ids : List (List Char)) :
    (generate_attorneys ids).length = 50 ∧
    ∀ i, i < 50 →
      ((generate_attorneys ids).getD i default).first_name
          = (ATTORNEY_DATA.getD i ([], [], [], none)).1 ∧
      ((generate_attorneys ids).getD i default).middle_name
          = (ATTORNEY_DATA.getD i ([], [], [], none)).2.1 ∧
      ((generate_attorneys ids).getD i default).last_name
          = (ATTORNEY_DATA.getD i ([], [], [], none)).2.2.1 ∧
      ((generate_attorneys ids).getD i default).firm_name
          = (ATTORNEY_DATA.getD i ([], [], [], none)).2.2.2 ∧
      ((generate_attorneys ids).getD i default).seed_key = "atty-".data ++ natChars i := by
  constructor
  · rw [generate_attorneys, genAttys_length]
    decide
  · intro i hi
    have hlt : i < ATTORNEY_DATA.length := by
      have h50 : ATTORNEY_DATA.length = 50 := by decide
      omega
    rw [generate_attorneys, genAttys_getD _ 0 i _ _ hlt, Nat.zero_add]
    exact ⟨rfl, rfl, rfl, rfl, rfl⟩

/-- Witness for C10: the count and a fixture correspondence at the empty
court set. -/
theorem attorney_fixture_fixed_witness :
    (generate_attorneys []).length = 50 ∧
    ((generate_attorneys []).getD 4 default).last_name
        = (ATTORNEY_DATA.getD 4 ([], [], [], none)).2.2.1 :=
  ⟨(attorney_fixture_fixed []).1, ((attorney_fixture_fixed []).2 4 (by decide)).2.2.1⟩

/-- C4: in court resolution, when a direction entry `d` is the first entry of
the direction table (in table order) occurring as a substring of the cleaned
name, and a region entry `s` is the first entry of the region table occurring
as a substring of the remaining text, the result is exactly
`s.abbrev ++ d.abbrev ++ "d"`; when no direction entry matches, the first
matching region entry alone determines the result.  First match in table
order wins in both scans — the hypotheses impose no longest-match or
best-match preference. -/
theorem resolver_first_match :
    (∀ (name : List Char) (d s : List Char × List Char)
        (l1 l2 m1 m2 : List (List Char × List Char)),
      name ≠ [] →
      DIRECTION_ABBREVS = l1 ++ d :: l2 →
      occursIn d.1 (cleanName name) = true →
      (∀ q ∈ l1, occursIn q.1 (cleanName name) = false) →
      STATE_ABBREVS = m1 ++ s :: m2 →
      occursIn s.1 (stripDirection (cleanName name) d) = true →
      (∀ q ∈ m1, occursIn q.1 (stripDirection (cleanName name) d) = false) →
      court_name_to_id name = some (s.2 ++ d.2 ++ "d".data)) ∧
    (∀ (name : List Char) (s : List Char × List Char)
        (m1 m2 : List (List Char × List Char)),
      name ≠ [] →
      (∀ q ∈ DIRECTION_ABBREVS, occursIn q.1 (cleanName name) = false) →
      STATE_ABBREVS = m1 ++ s :: m2 →
      occursIn s.1 (cleanName name) = true →
      (∀ q ∈ m1, occursIn q.1 (cleanName name) = false) →
      court_name_to_id name = some (s.2 ++ "d".data)) := by
  constructor
  · intro name d s l1 l2 m1 m2 hne hdeq hdm hdb hseq hsm hsb
    have h1 : findFirst DIRECTION_ABBREVS (cleanName name) = some d := by
      rw [hdeq]
      exact findFirst_of_decomp hdm hdb
    have h2 : findFirst STATE_ABBREVS (stripDirection (cleanName name) d) = some s := by
      rw [hseq]
      exact findFirst_of_decomp hsm hsb
    simp only [court_name_to_id, if_neg hne, h1, h2]
  · intro name s m1 m2 hne hdn hseq hsm hsb
    have h1 : findFirst DIRECTION_ABBREVS (cleanName name) = none := findFirst_of_none hdn
    have h2 : findFirst STATE_ABBREVS (cleanName name) = some s := by
      rw [hseq]
      exact findFirst_of_decomp hsm hsb
    simp only [court_name_to_id, if_neg hne, h1, h2, List.append_nil]

/-- Witness for C4: the Northern District of California resolution, with the
direction and region entries exhibited at their table positions. -/
theorem resolver_first_match_witness :
    court_name_to_id "U.S. District Court for the Northern District of California".data
      = some ("ca".data ++ "n".data ++ "d".data) :=
  resolver_first_match.1
    "U.S. District Court for the Northern District of California".data
    ("Northern".data, "n".data) ("California".data, "ca".data)
    [] (DIRECTION_ABBREVS.drop 1) (STATE_ABBREVS.take 4) (STATE_ABBREVS.drop 5)
    (by decide) (by decide) (by decide) (by decide) (by decide) (by decide) (by decide)

theorem bytesHex_length (bs : List Nat) : (bytesHex bs).length = 2 * bs.length := by
  induction bs with
  | nil => rfl
  | cons b rest ih =>
    rw [bytesHex, List.length_append, ih, byteHex]
    simp only [List.length_cons, List.length_nil]
    omega

theorem hexDigitChar_mem {n : Nat} (h : n < 16) : hexDigitChar n ∈ hexChars := by
  rw [hexDigitChar, List.getD_eq_getElem hexChars 'x' (show n < hexChars.length by
    rw [show hexChars.length = 16 from rfl]; exact h)]
  exact List.getElem_mem _

theorem bytesHex_mem {bs : List Nat} {c : Char} (h : c ∈ bytesHex bs) : c ∈ hexChars := by
  induction bs with
  | nil => simp [bytesHex] at h
  | cons b rest ih =>
    rw [bytesHex] at h
    rcases List.mem_append.mp h with h | h
    · rw [byteHex] at h
      rcases List.mem_cons.mp h with rfl | h
      · exact hexDigitChar_mem (Nat.mod_lt _ (by omega))
      · rcases List.mem_cons.mp h with rfl | h
        · exact hexDigitChar_mem (Nat.mod_lt _ (by omega))
        · simp at h
    · exact ih h

theorem sha256hex_length (msg : List Nat) : (sha256hex msg).length = 64 := by
  rw [sha256hex, bytesHex_length]
  rfl

theorem sha256hex_hex {msg : List Nat} {c : Char} (h : c ∈ sha256hex msg) :
    c ∈ hexChars := bytesHex_mem h

/-- C9: for every seed key `k`, the derived identifier is a pure function of
`k`, has length 36, and decomposes into five hyphen-separated groups of
lengths 8-4-4-4-12 sliced from the SHA-256 hex digest of `k`, every group
character a lowercase hex digit, the third group starting with the version
nibble `4` and the fourth with the variant nibble `8`. -/
theorem uuid_shape (k : List Char) :
    (∀ k2, k2 = k → deterministic_uuid k2 = deterministic_uuid k) ∧
    (deterministic_uuid k).length = 36 ∧
    ∃ g1 g2 g3 g4 g5 : List Char,
      deterministic_uuid k
        = g1 ++ ['-'] ++ g2 ++ ['-'] ++ g3 ++ ['-'] ++ g4 ++ ['-'] ++ g5 ∧
      g1 = (sha256hex (utf8Encode k)).take 8 ∧
      g2 = ((sha256hex (utf8Encode k)).drop 8).take 4 ∧
      g3 = '4' :: ((sha256hex (utf8Encode k)).drop 13).take 3 ∧
      g4 = '8' :: ((sha256hex (utf8Encode k)).drop 17).take 3 ∧
      g5 = ((sha256hex (utf8Encode k)).drop 20).take 12 ∧
      g1.length = 8 ∧ g2.length = 4 ∧ g3.length = 4 ∧ g4.length = 4 ∧
      g5.length = 12 ∧
      (∀ c, c ∈ g1 ++ g2 ++ g3 ++ g4 ++ g5 → c ∈ hexChars) ∧
      g3.getD 0 ' ' = '4' ∧ g4.getD 0 ' ' = '8' := by
  have hlen : (sha256hex (utf8Encode k)).length = 64 := sha256hex_length _
  refine ⟨fun k2 hk => by rw [hk], ?_, ?_⟩
  · rw [deterministic_uuid]
    simp only [List.length_append, List.length_take, List.length_drop,
      List.length_cons, List.length_nil, hlen]
    omega
  · refine ⟨(sha256hex (utf8Encode k)).take 8,
      ((sha256hex (utf8Encode k)).drop 8).take 4,
      '4' :: ((sha256hex (utf8Encode k)).drop 13).take 3,
      '8' :: ((sha256hex (utf8Encode k)).drop 17).take 3,
      ((sha256hex (utf8Encode k)).drop 20).take 12,
      rfl, rfl, rfl, rfl, rfl, rfl, ?_, ?_, ?_, ?_, ?_, ?_, rfl, rfl⟩
    · rw [List.length_take, hlen]
      omega
    · rw [List.length_take, List.length_drop, hlen]
      omega
    · rw [List.length_cons, List.length_take, List.length_drop, hlen]
      omega
    · rw [List.length_cons, List.length_take, List.length_drop, hlen]
      omega
    · rw [List.length_take, List.length_drop, hlen]
      omega
    · intro c hc
      rcases List.mem_append.mp hc with hc | hc5
      rotate_left
      · exact sha256hex_hex (List.drop_subset _ _ (List.take_subset _ _ hc5))
      rcases List.mem_append.mp hc with hc | hc4
      rotate_left
      · rcases List.mem_cons.mp hc4 with rfl | hc4
        · decide
        · exact sha256hex_hex (List.drop_subset _ _ (List.take_subset _ _ hc4))
      rcases List.mem_append.mp hc with hc | hc3
      rotate_left
      · rcases List.mem_cons.mp hc3 with rfl | hc3
        · decide
        · exact sha256hex_hex (List.drop_subset _ _ (List.take_subset _ _ hc3))
      rcases List.mem_append.mp hc with hc1 | hc2
      · exact sha256hex_hex (List.take_subset _ _ hc1)
      · exact sha256hex_hex (List.drop_subset _ _ (List.take_subset _ _ hc2))

/-- Witness for C9: the shape theorem at a concrete seed key. -/
theorem uuid_shape_witness :
    (deterministic_uuid "csv-1234".data).length = 36 :=
  (uuid_shape "csv-1234".data).2.1

end Seed

